import Mathlib

/-!
Shallow embedding of the webgpu-black-hole raymarching core
(`blackhole-shader` TSL code and the `BlackHoleSimulation` uniform table),
with theorems settling the frozen claims about it.

Real-valued shader arithmetic is modelled over `ℝ`; WGSL/TSL intrinsics
(`mix`, `clamp`, `smoothstep`, `fract`, `mod`, `pow`, `sign`, `atan(y,x)`,
`asin`, `normalize`) are given their GLSL/WGSL definitions.  The marching
loop `Loop(64, ...)` with `Break` is embedded as 64 applications of a step
function that is the identity once a break flag is set; an iteration
counter records how many non-broken iterations actually execute.

Two shader variants exist in the repository: the one with Doppler beaming
and a constant marching step (embedded below as `loopBody`,
`accretionDiskColor`), and the one with the adaptive horizon-proximity
step and no Doppler term (embedded as `loopBody3`, `accretionDiskColor3`,
`horizonFactor`).
-/

namespace BlackHole

open scoped Classical

noncomputable section

/-- Two-component vector of reals (TSL `vec2`). -/
structure Vec2 where
  x : ℝ
  y : ℝ

/-- Three-component vector of reals (TSL `vec3`). -/
structure Vec3 where
  x : ℝ
  y : ℝ
  z : ℝ

/-- Four-component vector of reals (TSL `vec4`). -/
structure Vec4 where
  x : ℝ
  y : ℝ
  z : ℝ
  w : ℝ

/-- The rgb part of a `vec4` (TSL `.xyz`). -/
def Vec4.xyz (v : Vec4) : Vec3 := ⟨v.x, v.y, v.z⟩

def add2 (a b : Vec2) : Vec2 := ⟨a.x + b.x, a.y + b.y⟩

def sub2 (a b : Vec2) : Vec2 := ⟨a.x - b.x, a.y - b.y⟩

/-- Componentwise addition of a scalar to a `vec2` (TSL `v.add(c)`). -/
def addS2 (v : Vec2) (c : ℝ) : Vec2 := ⟨v.x + c, v.y + c⟩

/-- Componentwise scalar multiple of a `vec2`. -/
def smul2 (c : ℝ) (v : Vec2) : Vec2 := ⟨c * v.x, c * v.y⟩

def add3 (a b : Vec3) : Vec3 := ⟨a.x + b.x, a.y + b.y, a.z + b.z⟩

def sub3 (a b : Vec3) : Vec3 := ⟨a.x - b.x, a.y - b.y, a.z - b.z⟩

def neg3 (a : Vec3) : Vec3 := ⟨-a.x, -a.y, -a.z⟩

/-- Componentwise scalar multiple of a `vec3` (TSL `v.mul(c)`). -/
def smul3 (c : ℝ) (v : Vec3) : Vec3 := ⟨c * v.x, c * v.y, c * v.z⟩

/-- Componentwise division of a `vec3` by a scalar (TSL `v.div(c)`). -/
def divS3 (v : Vec3) (c : ℝ) : Vec3 := ⟨v.x / c, v.y / c, v.z / c⟩

/-- Componentwise addition of a scalar to a `vec3` (TSL `v.add(c)`). -/
def addS3 (v : Vec3) (c : ℝ) : Vec3 := ⟨v.x + c, v.y + c, v.z + c⟩

def dot2 (a b : Vec2) : ℝ := a.x * b.x + a.y * b.y

def dot3 (a b : Vec3) : ℝ := a.x * b.x + a.y * b.y + a.z * b.z

def length2 (v : Vec2) : ℝ := Real.sqrt (dot2 v v)

def length3 (v : Vec3) : ℝ := Real.sqrt (dot3 v v)

/-- GPU `normalize`: divide by the Euclidean length. -/
def normalize3 (v : Vec3) : Vec3 := divS3 v (length3 v)

def cross3 (a b : Vec3) : Vec3 :=
  ⟨a.y * b.z - a.z * b.y, a.z * b.x - a.x * b.z, a.x * b.y - a.y * b.x⟩

/-- GLSL/WGSL `clamp`. -/
def clamp (x lo hi : ℝ) : ℝ := min (max x lo) hi

/-- GLSL/WGSL `mix`: linear interpolation `a * (1 - t) + b * t`. -/
def mix (a b t : ℝ) : ℝ := a * (1 - t) + b * t

/-- Componentwise `mix` of two `vec3`s by one scalar parameter. -/
def mix3 (a b : Vec3) (t : ℝ) : Vec3 := ⟨mix a.x b.x t, mix a.y b.y t, mix a.z b.z t⟩

/-- GLSL/WGSL `smoothstep`: cubic Hermite threshold between two edges. -/
def smoothstep (e0 e1 x : ℝ) : ℝ :=
  let t := clamp ((x - e0) / (e1 - e0)) 0 1
  t * t * (3 - 2 * t)

/-- GLSL/WGSL `step(edge, x)`: 0 below the edge, 1 at or above it. -/
def step (edge x : ℝ) : ℝ := if x < edge then 0 else 1

/-- GLSL/WGSL `fract`: fractional part `x - floor x`. -/
def fract (x : ℝ) : ℝ := x - ⌊x⌋

def fract2 (v : Vec2) : Vec2 := ⟨fract v.x, fract v.y⟩

def floor2 (v : Vec2) : Vec2 := ⟨(⌊v.x⌋ : ℝ), (⌊v.y⌋ : ℝ)⟩

def floor3 (v : Vec3) : Vec3 := ⟨(⌊v.x⌋ : ℝ), (⌊v.y⌋ : ℝ), (⌊v.z⌋ : ℝ)⟩

def fract3 (v : Vec3) : Vec3 := ⟨fract v.x, fract v.y, fract v.z⟩

/-- GLSL/WGSL `mod(x, y) = x - y * floor (x / y)`. -/
def tslMod (x y : ℝ) : ℝ := x - y * ⌊x / y⌋

/-- Shader `pow`, modelled by the real power `Real.rpow`. -/
def tslPow (x y : ℝ) : ℝ := x ^ y

/-- Shader `sign`: -1, 0 or 1. -/
def tslSign (x : ℝ) : ℝ := Real.sign x

/-- Two-argument arctangent, the shader `atan(y, x)`. -/
def atan2 (y x : ℝ) : ℝ :=
  if 0 < x then Real.arctan (y / x)
  else if x < 0 then
    (if 0 ≤ y then Real.arctan (y / x) + Real.pi else Real.arctan (y / x) - Real.pi)
  else
    (if 0 < y then Real.pi / 2 else if y < 0 then -(Real.pi / 2) else 0)

/-- The shader uniform set: every field the embedded shader code reads.
Scalar uniforms are reals, colors and camera vectors are `Vec3`,
`resolution` a `Vec2`; the boolean toggles are the reals 0 / 1 exactly as
`initializeUniforms` encodes them. -/
structure Uniforms where
  blackHoleMass : ℝ
  diskInnerRadius : ℝ
  diskOuterRadius : ℝ
  diskTemperature : ℝ
  temperatureFalloff : ℝ
  diskBrightness : ℝ
  diskRotationSpeed : ℝ
  dopplerStrength : ℝ
  turbulenceScale : ℝ
  turbulenceStretch : ℝ
  turbulenceSharpness : ℝ
  turbulenceCycleTime : ℝ
  turbulenceLacunarity : ℝ
  turbulencePersistence : ℝ
  diskEdgeSoftnessInner : ℝ
  diskEdgeSoftnessOuter : ℝ
  gravitationalLensing : ℝ
  stepSize : ℝ
  starsEnabled : ℝ
  starBackgroundColor : Vec3
  starDensity : ℝ
  starSize : ℝ
  starBrightness : ℝ
  nebulaEnabled : ℝ
  nebula1Scale : ℝ
  nebula1Density : ℝ
  nebula1Brightness : ℝ
  nebula1Color : Vec3
  nebula2Scale : ℝ
  nebula2Density : ℝ
  nebula2Brightness : ℝ
  nebula2Color : Vec3
  time : ℝ
  resolution : Vec2
  cameraPosition : Vec3
  cameraTarget : Vec3

/-- Hash of a 2D coordinate (source `hash21`). -/
def hash21 (p : Vec2) : ℝ :=
  fract (Real.sin (dot2 p ⟨127.1, 311.7⟩) * 43758.5453)

/-- Hash of a 3D coordinate (source `hash31`). -/
def hash31 (p : Vec3) : ℝ :=
  fract (Real.sin (dot3 p ⟨127.1, 311.7, 74.7⟩) * 43758.5453)

/-- Hash of a 2D coordinate to a 2D value (source `hash22`). -/
def hash22 (p : Vec2) : Vec2 :=
  ⟨fract (Real.sin (dot2 p ⟨127.1, 311.7⟩) * 43758.5453),
   fract (Real.sin (dot2 p ⟨269.5, 183.3⟩) * 43758.5453)⟩

/-- 3D value noise: trilinear interpolation of hashed cell corners with a
cubic smoothing curve per axis (source `noise3D`). -/
def noise3D (p : Vec3) : ℝ :=
  let i := floor3 p
  let f := fract3 p
  let u : Vec3 := ⟨f.x * f.x * (3 - 2 * f.x), f.y * f.y * (3 - 2 * f.y),
                   f.z * f.z * (3 - 2 * f.z)⟩
  let a := hash31 i
  let b := hash31 (add3 i ⟨1, 0, 0⟩)
  let c := hash31 (add3 i ⟨0, 1, 0⟩)
  let d := hash31 (add3 i ⟨1, 1, 0⟩)
  let e := hash31 (add3 i ⟨0, 0, 1⟩)
  let f2 := hash31 (add3 i ⟨1, 0, 1⟩)
  let g := hash31 (add3 i ⟨0, 1, 1⟩)
  let h := hash31 (add3 i ⟨1, 1, 1⟩)
  mix (mix (mix a b u.x) (mix c d u.x) u.y)
      (mix (mix e f2 u.x) (mix g h u.x) u.y) u.z

/-- Fractal Brownian Motion, 4 unrolled octaves (source `fbm`). -/
def fbm (p : Vec3) (lacunarity persistence : ℝ) : ℝ :=
  let v1 := noise3D p * 0.5
  let p1 := smul3 lacunarity p
  let a1 := 0.5 * persistence
  let v2 := v1 + noise3D p1 * a1
  let p2 := smul3 lacunarity p1
  let a2 := a1 * persistence
  let v3 := v2 + noise3D p2 * a2
  let p3 := smul3 lacunarity p2
  let a3 := a2 * persistence
  v3 + noise3D p3 * a3

/-- Blackbody temperature (Kelvin) to RGB approximation (source
`blackbodyColor`). -/
def blackbodyColor (temp : ℝ) : Vec3 :=
  let t := clamp ((temp - 1000) / 9000) 0 1
  let red := clamp (1 - (t - 0.8) * 2) 0.5 1
  let green := smoothstep 0 0.5 t * (1 - max ((t - 0.7) * 0.3) 0)
  let blue := smoothstep 0.3 1 t * t
  ⟨red, green, blue⟩

/-- The argument handed to `asin` in the star field: the ray y-component
clamped to [-1, 1] before the inverse trig call. -/
def asinArg (d : Vec3) : ℝ := clamp d.y (-1) 1

/-- Procedural star field sampled by ray direction (source
`createStarField`). -/
def starField (u : Uniforms) (rayDir : Vec3) : Vec3 :=
  let theta := atan2 rayDir.z rayDir.x
  let phi := Real.arcsin (asinArg rayDir)
  let gridScale := 60 / u.starSize
  let scaledCoord := smul2 gridScale ⟨theta, phi⟩
  let cell := floor2 scaledCoord
  let cellUV := fract2 scaledCoord
  let cellHash := hash21 cell
  let starProb := step (1 - u.starDensity) cellHash
  let starPos := addS2 (smul2 0.8 (hash22 (addS2 cell 42))) 0.1
  let distToStar := length2 (sub2 cellUV starPos)
  let baseSizeVar := hash21 (addS2 cell 100) * 0.03 + 0.01
  let finalStarSize := baseSizeVar * u.starSize
  let starCore := smoothstep finalStarSize 0 distToStar
  let starGlow := smoothstep (finalStarSize * 3) 0 distToStar * 0.3
  let starIntensity := (starCore + starGlow) * starProb
  let colorTemp := hash21 (addS2 cell 200)
  let starColor := mix3 ⟨0.8, 0.9, 1.0⟩ ⟨1.0, 0.95, 0.8⟩ colorTemp
  smul3 u.starBrightness (smul3 starIntensity starColor)

/-- Procedural nebula clouds, two additive FBM layers (source
`createNebulaField`). -/
def nebulaField (u : Uniforms) (rayDir : Vec3) : Vec3 :=
  let n1 := fbm (smul3 u.nebula1Scale rayDir) 2 0.5 * 2 - 1
  let layer1 := clamp (n1 + u.nebula1Density) 0 1
  let color1 := smul3 u.nebula1Brightness (smul3 layer1 u.nebula1Color)
  let n2 := fbm (smul3 u.nebula2Scale rayDir) 2 0.5 * 2 - 1
  let layer2 := clamp (n2 + u.nebula2Density) 0 1
  let color2 := smul3 u.nebula2Brightness (smul3 layer2 u.nebula2Color)
  add3 color1 color2

/-- The denominator used for the anisotropic turbulence coordinates: the
source clamps it as `turbulenceStretch.max(0.1)`. -/
def stretchDenom (u : Uniforms) : ℝ := max u.turbulenceStretch 0.1

/-- The denominator used for the turbulence crossfade `blendFactor` (and
the divisor of the cyclic `mod`): the source uses the raw
`turbulenceCycleTime` uniform, with no clamp. -/
def blendDenom (u : Uniforms) : ℝ := u.turbulenceCycleTime

/-- Keplerian phase advance for a given time basis (source
`keplerianPhase1` / `keplerianPhase2`): `basis * rotationSpeed / hitR^1.5`. -/
def keplerianPhase (u : Uniforms) (hitR basis : ℝ) : ℝ :=
  basis * u.diskRotationSpeed / tslPow hitR 1.5

/-- One turbulence sample of the accretion disk at a given time basis:
anisotropic noise coordinates built from the rotated azimuth, fed to FBM. -/
def turbAt (u : Uniforms) (hitR hitAngle basis : ℝ) : ℝ :=
  let rotatedAngle := hitAngle + keplerianPhase u hitR basis
  fbm ⟨hitR * u.turbulenceScale,
       Real.cos rotatedAngle / stretchDenom u,
       Real.sin rotatedAngle / stretchDenom u⟩
    u.turbulenceLacunarity u.turbulencePersistence

/-- The crossfaded turbulence as a function of the cyclic time value
`cyc = time mod cycleTime`: `mix(turbulence2, turbulence1, cyc / cycleTime)`
where `turbulence1` uses `cyc` and `turbulence2` uses `cyc + cycleTime` as
time basis. -/
def blendedCyc (u : Uniforms) (hitR hitAngle cyc : ℝ) : ℝ :=
  mix (turbAt u hitR hitAngle (cyc + blendDenom u))
      (turbAt u hitR hitAngle cyc)
      (cyc / blendDenom u)

/-- The blended disk turbulence as the source computes it from raw elapsed
time: reduce time cyclically, then crossfade the two phase samples. -/
def blendedTurbulence (u : Uniforms) (hitR hitAngle time : ℝ) : ℝ :=
  blendedCyc u hitR hitAngle (tslMod time (blendDenom u))

/-- Normalized disk radius clamped to [0,1] (source `normR`). -/
def normR (u : Uniforms) (hitR : ℝ) : ℝ :=
  clamp ((hitR - u.diskInnerRadius) / (u.diskOuterRadius - u.diskInnerRadius)) 0 1

/-- Disk temperature profile (source `tempK`): interpolate the fixed 1500K
outer temperature toward `diskTemperature * 1000` by the power-law weight
`(innerR / hitR) ^ temperatureFalloff`. -/
def tempK (u : Uniforms) (hitR : ℝ) : ℝ :=
  mix 1500 (u.diskTemperature * 1000)
    (tslPow (u.diskInnerRadius / hitR) u.temperatureFalloff)

/-- Edge falloff of the disk (source `edgeFalloff`). -/
def edgeFalloff (u : Uniforms) (hitR : ℝ) : ℝ :=
  smoothstep 0 u.diskEdgeSoftnessInner (normR u hitR) *
    smoothstep 1 (1 - u.diskEdgeSoftnessOuter) (normR u hitR)

/-- The local orbital velocity direction at the disk hit (source
`velocityDir`): the tangent at the hit angle, oriented by the sign of the
rotation speed uniform. -/
def velocityDir (u : Uniforms) (hitAngle : ℝ) : Vec3 :=
  ⟨-Real.sin hitAngle * tslSign u.diskRotationSpeed, 0,
    Real.cos hitAngle * tslSign u.diskRotationSpeed⟩

/-- Doppler boost as the shader computes it: `velocityMagnitude` from the
Keplerian-like square-root falloff, `beta = velocityMagnitude * 0.3`, then
`(1 / (1 - beta * cosTheta)) ^ (3 * dopplerStrength)`. -/
def dopplerBoost (u : Uniforms) (hitR hitAngle : ℝ) (rayDir : Vec3) : ℝ :=
  let velocityMagnitude := 1 / Real.sqrt (hitR / u.diskInnerRadius)
  let beta := velocityMagnitude * 0.3
  let cosTheta := dot3 (velocityDir u hitAngle) rayDir
  tslPow (1 / (1 - beta * cosTheta)) (3 * u.dopplerStrength)

/-- Doppler boost transcribed from the words of the specification, for
comparison with the code-derived `dopplerBoost`: the boost is
`(1 / (1 - beta * cosTheta)) ^ (3 * dopplerStrength)` with
`beta = 0.3 * (1 / sqrt (hitR / innerR))` and `cosTheta` the dot product
of the oriented unit tangential velocity direction with the ray direction. -/
def dopplerBoostSpec (u : Uniforms) (hitR hitAngle : ℝ) (rayDir : Vec3) : ℝ :=
  tslPow (1 / (1 - (0.3 * (1 / Real.sqrt (hitR / u.diskInnerRadius))) *
      dot3 (velocityDir u hitAngle) rayDir))
    (3 * u.dopplerStrength)

/-- Turbulent ring opacity (source `ringOpacity`): blended turbulence
clamped to [0,1] and raised to the sharpness exponent. -/
def ringOpacity (u : Uniforms) (hitR hitAngle time : ℝ) : ℝ :=
  tslPow (clamp (blendedTurbulence u hitR hitAngle time) 0 1) u.turbulenceSharpness

/-- Accretion disk color of the Doppler-aware shader variant (source
`createAccretionDiskColor` taking `rayDir`): returns rgb color and local
opacity. -/
def accretionDiskColor (u : Uniforms) (hitR hitAngle time : ℝ) (rayDir : Vec3) : Vec4 :=
  let diskColor := blackbodyColor (tempK u hitR)
  let boosted := smul3 (clamp (dopplerBoost u hitR hitAngle rayDir) 0.1 5) diskColor
  let finalOpacity := ringOpacity u hitR hitAngle time * edgeFalloff u hitR
  let finalColor := smul3 u.diskBrightness boosted
  ⟨finalColor.x, finalColor.y, finalColor.z, finalOpacity⟩

/-- Accretion disk color of the adaptive-step shader variant (no Doppler
term; source `createAccretionDiskColor` taking only radius, angle, time). -/
def accretionDiskColor3 (u : Uniforms) (hitR hitAngle time : ℝ) : Vec4 :=
  let diskColor := blackbodyColor (tempK u hitR)
  let finalOpacity := ringOpacity u hitR hitAngle time * edgeFalloff u hitR
  let finalColor := smul3 u.diskBrightness diskColor
  ⟨finalColor.x, finalColor.y, finalColor.z, finalOpacity⟩

/-- Schwarzschild radius used by the shader: `blackHoleMass * 2`. -/
def rsOf (u : Uniforms) : ℝ := u.blackHoleMass * 2

/-- The denominator of the plane-crossing interpolation parameter:
`rayPos.y - prevPos.y`. -/
def planeDenom (prev cur : Vec3) : ℝ := cur.y - prev.y

/-- Disk-plane crossing test: previous and current y have opposite signs. -/
def crossedPlane (prev cur : Vec3) : Prop := prev.y * cur.y < 0

/-- The disk-hit acceptance test exactly as the shader writes it:
`hitR.greaterThan(innerR).and(hitR.lessThan(outerR))`. -/
def hitAccepted (u : Uniforms) (hitR : ℝ) : Prop :=
  u.diskInnerRadius < hitR ∧ hitR < u.diskOuterRadius

/-- Planar hit radius at the interpolated crossing point. -/
def hitRadius (hitPos : Vec3) : ℝ :=
  Real.sqrt (hitPos.x * hitPos.x + hitPos.z * hitPos.z)

/-- Per-pixel ray state of the marching loop, plus a counter of the loop
iterations whose body actually executed (those not cut short by the
top-of-loop break). -/
structure MarchState where
  rayPos : Vec3
  prevPos : Vec3
  rayDir : Vec3
  color : Vec3
  alpha : ℝ
  escaped : ℝ
  captured : ℝ
  iters : ℕ

/-- Top-of-loop break condition: already escaped, captured, or opaque. -/
def breakCond (s : MarchState) : Prop :=
  s.escaped > 0.5 ∨ s.captured > 0.5 ∨ s.alpha > 0.99

/-- One iteration of the marching loop of the Doppler-aware shader variant
(constant step `stepSize`): break checks, capture and escape tests,
gravitational bending, the position advance, and the disk-crossing
compositing branch. -/
def loopBody (u : Uniforms) (s : MarchState) : MarchState :=
  if breakCond s then s
  else
    let s1 := { s with iters := s.iters + 1 }
    let r := length3 s1.rayPos
    if r < rsOf u * 1.01 then { s1 with captured := 1 }
    else if r > 100 then { s1 with escaped := 1 }
    else
      let toCenter := divS3 (neg3 s1.rayPos) r
      let bendStrength := rsOf u / (r * r) * u.stepSize * u.gravitationalLensing
      let rayDir2 := normalize3 (add3 s1.rayDir (smul3 bendStrength toCenter))
      let prevPos2 := s1.rayPos
      let rayPos2 := add3 s1.rayPos (smul3 u.stepSize rayDir2)
      let s2 := { s1 with rayDir := rayDir2, prevPos := prevPos2, rayPos := rayPos2 }
      if crossedPlane prevPos2 rayPos2 ∧ s2.alpha < 0.99 then
        let t := -prevPos2.y / planeDenom prevPos2 rayPos2
        let hitPos := mix3 prevPos2 rayPos2 t
        let hitR := hitRadius hitPos
        if hitAccepted u hitR then
          let hitAngle := atan2 hitPos.z hitPos.x
          let diskResult := accretionDiskColor u hitR hitAngle u.time rayDir2
          let remainingAlpha := 1 - s2.alpha
          { s2 with
            color := add3 s2.color (smul3 remainingAlpha (smul3 diskResult.w diskResult.xyz)),
            alpha := s2.alpha + remainingAlpha * diskResult.w }
        else s2
      else s2

/-- Horizon-proximity factor of the adaptive-step shader variant:
`smoothstep(0, rs * 5, r - rs) * 0.8 + 0.2`. -/
def horizonFactor (rs r : ℝ) : ℝ :=
  smoothstep 0 (rs * 5) (r - rs) * 0.8 + 0.2

/-- One iteration of the marching loop of the adaptive-step shader variant:
identical to `loopBody` except that both the bending magnitude and the
position advance use `stepSize * horizonFactor` and the disk branch calls
the Doppler-free disk color. -/
def loopBody3 (u : Uniforms) (s : MarchState) : MarchState :=
  if breakCond s then s
  else
    let s1 := { s with iters := s.iters + 1 }
    let r := length3 s1.rayPos
    if r < rsOf u * 1.01 then { s1 with captured := 1 }
    else if r > 100 then { s1 with escaped := 1 }
    else
      let adaptiveStep := u.stepSize * horizonFactor (rsOf u) r
      let toCenter := divS3 (neg3 s1.rayPos) r
      let bendStrength := rsOf u / (r * r) * adaptiveStep * u.gravitationalLensing
      let rayDir2 := normalize3 (add3 s1.rayDir (smul3 bendStrength toCenter))
      let prevPos2 := s1.rayPos
      let rayPos2 := add3 s1.rayPos (smul3 adaptiveStep rayDir2)
      let s2 := { s1 with rayDir := rayDir2, prevPos := prevPos2, rayPos := rayPos2 }
      if crossedPlane prevPos2 rayPos2 ∧ s2.alpha < 0.99 then
        let t := -prevPos2.y / planeDenom prevPos2 rayPos2
        let hitPos := mix3 prevPos2 rayPos2 t
        let hitR := hitRadius hitPos
        if hitAccepted u hitR then
          let hitAngle := atan2 hitPos.z hitPos.x
          let diskResult := accretionDiskColor3 u hitR hitAngle u.time
          let remainingAlpha := 1 - s2.alpha
          { s2 with
            color := add3 s2.color (smul3 remainingAlpha (smul3 diskResult.w diskResult.xyz)),
            alpha := s2.alpha + remainingAlpha * diskResult.w }
        else s2
      else s2

/-- Pinhole-camera ray direction for a screen UV coordinate (source camera
setup in `createBlackHoleShader`). -/
def rayDirOf (u : Uniforms) (screenUV : Vec2) : Vec3 :=
  let uv := smul2 2 (sub2 screenUV ⟨0.5, 0.5⟩)
  let aspect := u.resolution.x / u.resolution.y
  let screenPos : Vec2 := ⟨uv.x * aspect, uv.y⟩
  let camForward := normalize3 (sub3 u.cameraTarget u.cameraPosition)
  let worldUp : Vec3 := ⟨0, 1, 0⟩
  let camRight := normalize3 (cross3 worldUp camForward)
  let camUp := cross3 camForward camRight
  normalize3 (add3 (add3 (smul3 1 camForward) (smul3 screenPos.x camRight))
    (smul3 screenPos.y camUp))

/-- Initial ray state: position and previous position at the camera,
black color, zero opacity, no flags, zero executed iterations. -/
def initState (u : Uniforms) (rayDir : Vec3) : MarchState :=
  { rayPos := u.cameraPosition, prevPos := u.cameraPosition, rayDir := rayDir,
    color := ⟨0, 0, 0⟩, alpha := 0, escaped := 0, captured := 0, iters := 0 }

/-- The ray state after the 64-iteration marching loop of the Doppler-aware
shader variant. -/
def marchFinal (u : Uniforms) (screenUV : Vec2) : MarchState :=
  (loopBody u)^[64] (initState u (rayDirOf u screenUV))

/-- The escaped flag after the post-loop fixup: a ray that was not captured
is forced to escaped. -/
def escapedAfterLoop (u : Uniforms) (screenUV : Vec2) : ℝ :=
  if (marchFinal u screenUV).captured < 0.5 then 1 else (marchFinal u screenUV).escaped

/-- The background color for an escaped ray: base color plus star field and
nebula when enabled, sampled with the final bent ray direction. -/
def bgColorOf (u : Uniforms) (rayDir : Vec3) : Vec3 :=
  let base := u.starBackgroundColor
  let withStars := if u.starsEnabled > 0.5 then add3 base (starField u rayDir) else base
  if u.nebulaEnabled > 0.5 then add3 withStars (nebulaField u rayDir) else withStars

/-- The background contribution composited under the accumulated disk
color: present only for escaped, not-yet-opaque rays, weighted by the
remaining transparency. -/
def bgTerm (u : Uniforms) (screenUV : Vec2) : Vec3 :=
  let s := marchFinal u screenUV
  if escapedAfterLoop u screenUV > 0.5 ∧ s.alpha < 0.99 then
    smul3 (1 - s.alpha) (bgColorOf u s.rayDir)
  else ⟨0, 0, 0⟩

/-- The full per-pixel shader of the Doppler-aware variant: march, post-loop
escape fixup, background compositing, gamma correction, alpha fixed at 1. -/
def shadePixel (u : Uniforms) (screenUV : Vec2) : Vec4 :=
  let s := marchFinal u screenUV
  let c := add3 s.color (bgTerm u screenUV)
  ⟨tslPow c.x (1 / 2.2), tslPow c.y (1 / 2.2), tslPow c.z (1 / 2.2), 1⟩

/-- The singularity-preemption property the specification asserts of the
shader: every denominator and inverse-trig argument in the listed places is
nonzero / in range — the turbulence-stretch denominator, the turbulence
cycle-length denominator, the plane-crossing denominator under its crossing
guard, the radial distance under the not-captured guard, and the `asin`
argument of the star field. -/
def singularityGuards (u : Uniforms) : Prop :=
  stretchDenom u ≠ 0 ∧
  blendDenom u ≠ 0 ∧
  (∀ prev cur : Vec3, crossedPlane prev cur → planeDenom prev cur ≠ 0) ∧
  (∀ p : Vec3, ¬ length3 p < rsOf u * 1.01 → length3 p ≠ 0) ∧
  (∀ d : Vec3, asinArg d ∈ Set.Icc (-1 : ℝ) 1)

/-- A concrete uniform set built from the repository defaults
(`initializeUniforms` and the main-module default config); the three
fields those defaults never define (`dopplerStrength`,
`turbulenceLacunarity`, `turbulencePersistence`) are given the UI values. -/
def sampleUniforms : Uniforms :=
  { blackHoleMass := 1
    diskInnerRadius := 3
    diskOuterRadius := 12
    diskTemperature := 10
    temperatureFalloff := 0.75
    diskBrightness := 2
    diskRotationSpeed := 0.3
    dopplerStrength := 1
    turbulenceScale := 1
    turbulenceStretch := 5
    turbulenceSharpness := 1
    turbulenceCycleTime := 10
    turbulenceLacunarity := 2
    turbulencePersistence := 0.5
    diskEdgeSoftnessInner := 0.15
    diskEdgeSoftnessOuter := 0.15
    gravitationalLensing := 1.5
    stepSize := 0.3
    starsEnabled := 1
    starBackgroundColor := ⟨0, 0, 0⟩
    starDensity := 0.003
    starSize := 2
    starBrightness := 1
    nebulaEnabled := 0
    nebula1Scale := 2
    nebula1Density := 0.5
    nebula1Brightness := 0.15
    nebula1Color := ⟨0.1, 0, 0.2⟩
    nebula2Scale := 6
    nebula2Density := 0.5
    nebula2Brightness := 0.15
    nebula2Color := ⟨0.3, 0.1, 0.15⟩
    time := 0
    resolution := ⟨1920, 1080⟩
    cameraPosition := ⟨0, 5, 20⟩
    cameraTarget := ⟨0, 0, 0⟩ }

/-- Uniform set whose camera sits inside 1.01 times the event horizon. -/
def captureUniforms : Uniforms := { sampleUniforms with cameraPosition := ⟨0, 0, 1⟩ }

/-- Uniform set with a zero turbulence cycle time, a finite value the
uniform table accepts. -/
def zeroCycleUniforms : Uniforms := { sampleUniforms with turbulenceCycleTime := 0 }

/-- Uniform set with a cool disk: peak temperature 1000K, below the fixed
1500K outer temperature, falloff exponent 1. -/
def coolDiskUniforms : Uniforms :=
  { sampleUniforms with diskTemperature := 1, temperatureFalloff := 1 }

/-- The uniform keys `BlackHoleSimulation.initializeUniforms` creates,
transcribed in source order. -/
def initializedUniformKeys : List String :=
  ["blackHoleMass", "diskInnerRadius", "diskOuterRadius", "diskTemperature",
   "temperatureFalloff", "diskBrightness", "diskRotationSpeed",
   "turbulenceScale", "turbulenceStretch", "turbulenceBrightness",
   "turbulenceSharpness", "turbulenceCycleTime", "diskEdgeSoftnessInner",
   "diskEdgeSoftnessOuter", "gravitationalLensing", "diskDensity",
   "stepSize", "starsEnabled", "starBackgroundColor", "starDensity",
   "starSize", "starBrightness", "nebulaEnabled", "nebula1Scale",
   "nebula1Density", "nebula1Brightness", "nebula1Color", "nebula2Scale",
   "nebula2Density", "nebula2Brightness", "nebula2Color", "time",
   "resolution", "cameraPosition", "cameraTarget"]

/-- The uniform keys the Doppler-aware `createAccretionDiskColor` reads,
transcribed in source order. -/
def accretionDiskUniformReads : List String :=
  ["diskInnerRadius", "diskOuterRadius", "diskTemperature",
   "temperatureFalloff", "diskRotationSpeed", "dopplerStrength",
   "diskEdgeSoftnessInner", "diskEdgeSoftnessOuter", "turbulenceCycleTime",
   "diskRotationSpeed", "turbulenceScale", "turbulenceStretch",
   "turbulenceLacunarity", "turbulencePersistence", "turbulenceSharpness",
   "diskBrightness"]

end

/-! ## Helper lemmas -/

/-- A single loop iteration raises the executed-iteration counter by at
most one. -/
theorem loopBody_iters_le (u : Uniforms) (s : MarchState) :
    (loopBody u s).iters ≤ s.iters + 1 := by
  unfold loopBody
  dsimp only
  split_ifs <;> simp [Nat.le_succ]

/-- Iterating the loop body n times raises the counter by at most n. -/
theorem loopBody_iterate_iters (u : Uniforms) :
    ∀ (n : ℕ) (s : MarchState), ((loopBody u)^[n] s).iters ≤ s.iters + n := by
  intro n
  induction n with
  | zero => intro s; simp
  | succ n ih =>
    intro s
    rw [Function.iterate_succ_apply']
    calc (loopBody u ((loopBody u)^[n] s)).iters
        ≤ ((loopBody u)^[n] s).iters + 1 := loopBody_iters_le u _
      _ ≤ s.iters + n + 1 := Nat.add_le_add_right (ih s) 1
      _ = s.iters + (n + 1) := by omega

/-- A single iteration of the adaptive-step variant loop raises the
executed-iteration counter by at most one. -/
theorem loopBody3_iters_le (u : Uniforms) (s : MarchState) :
    (loopBody3 u s).iters ≤ s.iters + 1 := by
  unfold loopBody3
  dsimp only
  split_ifs <;> simp [Nat.le_succ]

/-- Iterating the adaptive-step variant loop n times raises the counter by
at most n. -/
theorem loopBody3_iterate_iters (u : Uniforms) :
    ∀ (n : ℕ) (s : MarchState), ((loopBody3 u)^[n] s).iters ≤ s.iters + n := by
  intro n
  induction n with
  | zero => intro s; simp
  | succ n ih =>
    intro s
    rw [Function.iterate_succ_apply']
    calc (loopBody3 u ((loopBody3 u)^[n] s)).iters
        ≤ ((loopBody3 u)^[n] s).iters + 1 := loopBody3_iters_le u _
      _ ≤ s.iters + n + 1 := Nat.add_le_add_right (ih s) 1
      _ = s.iters + (n + 1) := by omega

/-- A state whose captured flag is set is a fixed point of the loop body. -/
theorem loopBody_fixed_of_captured (u : Uniforms) (s : MarchState)
    (h : s.captured = 1) : loopBody u s = s := by
  unfold loopBody
  rw [if_pos]
  exact Or.inr (Or.inl (by rw [h]; norm_num))

/-- With the camera inside 1.01 times the Schwarzschild radius, the first
loop iteration sets the captured flag and touches nothing else but the
iteration counter. -/
theorem loopBody_capture_first (u : Uniforms) (rd : Vec3)
    (h : length3 u.cameraPosition < 1.01 * (2 * u.blackHoleMass)) :
    loopBody u (initState u rd) = { initState u rd with iters := 1, captured := 1 } := by
  have hb : ¬ breakCond (initState u rd) := by
    simp [breakCond, initState]
    norm_num
  have hcap : length3 (initState u rd).rayPos < rsOf u * 1.01 := by
    show length3 u.cameraPosition < rsOf u * 1.01
    unfold rsOf
    linarith
  unfold loopBody
  rw [if_neg hb, if_pos hcap]
  rfl

/-! ## Claim theorems -/

/-- C1: for every uniform set and pixel coordinate, the raymarching loop of
the shader — in both shader variants — executes at most 64 iterations (the
executed-iteration counter of the final marching state is at most 64), and
the shader is total: it returns a color whose alpha component is the
constant 1.  No hypothesis is needed: the bound is deterministic and
parameter-independent. -/
theorem marching_terminates_within_64 (u : Uniforms) (screenUV : Vec2) :
    (marchFinal u screenUV).iters ≤ 64 ∧ (shadePixel u screenUV).w = 1 ∧
    ((loopBody3 u)^[64] (initState u (rayDirOf u screenUV))).iters ≤ 64 := by
  refine ⟨?_, rfl, ?_⟩
  · have h := loopBody_iterate_iters u 64 (initState u (rayDirOf u screenUV))
    simpa [marchFinal, initState] using h
  · have h := loopBody3_iterate_iters u 64 (initState u (rayDirOf u screenUV))
    simpa [initState] using h

/-- C4: the shader is deterministic: the hash functions are pure functions
of their position argument alone, and two evaluations of the full per-pixel
shader at identical pixel coordinate, identical uniform set (which carries
the elapsed time) produce identical output. -/
theorem shader_deterministic (p q : Vec2) (a b : Vec3) (u v : Uniforms)
    (s t : Vec2) (hpq : p = q) (hab : a = b) (huv : u = v) (hst : s = t) :
    hash21 p = hash21 q ∧ hash31 a = hash31 b ∧ hash22 p = hash22 q ∧
    shadePixel u s = shadePixel v t := by
  subst hpq; subst hab; subst huv; subst hst
  exact ⟨rfl, rfl, rfl, rfl⟩

/-- Witness for C4 at concrete inputs. -/
theorem shader_deterministic_witness :
    hash21 ⟨1, 2⟩ = hash21 ⟨1, 2⟩ ∧ hash31 ⟨1, 2, 3⟩ = hash31 ⟨1, 2, 3⟩ ∧
    hash22 ⟨1, 2⟩ = hash22 ⟨1, 2⟩ ∧
    shadePixel sampleUniforms ⟨0.25, 0.75⟩ = shadePixel sampleUniforms ⟨0.25, 0.75⟩ :=
  shader_deterministic ⟨1, 2⟩ ⟨1, 2⟩ ⟨1, 2, 3⟩ ⟨1, 2, 3⟩ sampleUniforms
    sampleUniforms ⟨0.25, 0.75⟩ ⟨0.25, 0.75⟩ rfl rfl rfl rfl

/-- C6 counterexample: with the default disk radii (inner 3, outer 12) a
hit at radius exactly 3 is rejected by the shader acceptance test, although
3 lies in the half-open interval [3, 12) the claim asserts is accepted. -/
theorem disk_interval_cex :
    ¬ hitAccepted sampleUniforms 3 ∧ (3 : ℝ) ∈ Set.Ico (3 : ℝ) 12 := by
  constructor
  · intro h
    have h1 : sampleUniforms.diskInnerRadius < 3 := h.1
    norm_num [sampleUniforms] at h1
  · exact ⟨le_refl _, by norm_num⟩

/-- C6 amended: a detected disk-plane crossing is accepted if and only if
the interpolated hit radius lies in the open interval
(innerRadius, outerRadius); hits exactly at the inner or the outer radius
are both rejected. -/
theorem disk_interval_amended (u : Uniforms) (hitR : ℝ) :
    (hitAccepted u hitR ↔ hitR ∈ Set.Ioo u.diskInnerRadius u.diskOuterRadius) ∧
    ¬ hitAccepted u u.diskInnerRadius ∧ ¬ hitAccepted u u.diskOuterRadius := by
  refine ⟨by simp [hitAccepted, Set.mem_Ioo], ?_, ?_⟩
  · exact fun h => lt_irrefl _ h.1
  · exact fun h => lt_irrefl _ h.2

/-- C10: the Doppler-aware disk shading reads the uniform keys
`dopplerStrength`, `turbulenceLacunarity` and `turbulencePersistence`, and
none of them is among the keys `BlackHoleSimulation.initializeUniforms`
creates — the shader reads absent fields, contradicting the claim. -/
theorem disk_uniform_reads_not_initialized :
    ("dopplerStrength" ∈ accretionDiskUniformReads ∧
      "dopplerStrength" ∉ initializedUniformKeys) ∧
    ("turbulenceLacunarity" ∈ accretionDiskUniformReads ∧
      "turbulenceLacunarity" ∉ initializedUniformKeys) ∧
    ("turbulencePersistence" ∈ accretionDiskUniformReads ∧
      "turbulencePersistence" ∉ initializedUniformKeys) := by
  decide

/-- C3: for any camera position with norm below 1.01 times twice the black
hole mass, the first loop iteration sets the captured flag and every later
iteration is a no-op; after the loop the escaped flag is still zero, it
survives the post-loop fixup, and the background term of the returned pixel
color is exactly zero. -/
theorem immediate_capture (u : Uniforms)
    (h : length3 u.cameraPosition < 1.01 * (2 * u.blackHoleMass)) (screenUV : Vec2) :
    (loopBody u (initState u (rayDirOf u screenUV))).captured = 1 ∧
    (∀ n : ℕ, (loopBody u)^[n] (loopBody u (initState u (rayDirOf u screenUV))) =
      loopBody u (initState u (rayDirOf u screenUV))) ∧
    (marchFinal u screenUV).captured = 1 ∧
    (marchFinal u screenUV).escaped = 0 ∧
    escapedAfterLoop u screenUV = 0 ∧
    bgTerm u screenUV = ⟨0, 0, 0⟩ := by
  set rd := rayDirOf u screenUV with hrd
  have hcap := loopBody_capture_first u rd h
  have hfix : ∀ n : ℕ, (loopBody u)^[n] (loopBody u (initState u rd)) =
      loopBody u (initState u rd) := by
    intro n
    apply Function.iterate_fixed
    rw [hcap]
    exact loopBody_fixed_of_captured u _ rfl
  have hm : marchFinal u screenUV = loopBody u (initState u rd) := by
    unfold marchFinal
    rw [← hrd, show (64 : ℕ) = 63 + 1 from rfl, Function.iterate_succ_apply]
    exact hfix 63
  have hc1 : (loopBody u (initState u rd)).captured = 1 := by rw [hcap]
  have he0 : (loopBody u (initState u rd)).escaped = 0 := by rw [hcap]; rfl
  have heal : escapedAfterLoop u screenUV = 0 := by
    unfold escapedAfterLoop
    rw [hm, hc1, he0]
    norm_num
  refine ⟨hc1, hfix, by rw [hm, hc1], by rw [hm, he0], heal, ?_⟩
  unfold bgTerm
  rw [heal]
  norm_num

/-- Witness for C3: camera at distance 1 from the center of a mass-1 black
hole is captured. -/
theorem immediate_capture_witness :
    length3 captureUniforms.cameraPosition <
      1.01 * (2 * captureUniforms.blackHoleMass) ∧
    (marchFinal captureUniforms ⟨0.5, 0.5⟩).captured = 1 := by
  have hlen : length3 captureUniforms.cameraPosition = 1 := by
    show length3 ⟨0, 0, 1⟩ = 1
    unfold length3 dot3
    norm_num
  have h : length3 captureUniforms.cameraPosition <
      1.01 * (2 * captureUniforms.blackHoleMass) := by
    rw [hlen]
    norm_num [captureUniforms, sampleUniforms]
  exact ⟨h, (immediate_capture captureUniforms h ⟨0.5, 0.5⟩).2.2.1⟩

/-- C2 counterexample: with the turbulence cycle time set to the finite
value 0 the crossfade denominator the shader divides by is zero — the
claimed preemption of every listed singularity by clamping or guarding
fails on this parameter set. -/
theorem singularity_guards_cex : ¬ singularityGuards zeroCycleUniforms := by
  intro h
  have hb := h.2.1
  simp [blendDenom, zeroCycleUniforms] at hb

/-- C2 amended: all the listed singularities except the division by the
turbulence cycle time are preempted exactly as claimed (the stretch
denominator is clamped, the plane-crossing denominator and the radial
distance are guarded by the preceding conditionals, the asin argument is
clamped into [-1,1]); the crossfade denominator however is the raw
`turbulenceCycleTime`, so the property additionally needs that uniform to
be nonzero, and the radial guard needs a positive mass. -/
theorem singularity_guards_amended (u : Uniforms)
    (hc : u.turbulenceCycleTime ≠ 0) (hm : 0 < u.blackHoleMass) :
    singularityGuards u := by
  refine ⟨?_, hc, ?_, ?_, ?_⟩
  · have h1 : (0 : ℝ) < stretchDenom u :=
      lt_of_lt_of_le (by norm_num) (le_max_right _ _)
    exact ne_of_gt h1
  · intro prev cur hcr h0
    have hy : cur.y = prev.y := by
      unfold planeDenom at h0
      linarith
    unfold crossedPlane at hcr
    rw [hy] at hcr
    exact absurd hcr (not_lt.2 (mul_self_nonneg _))
  · intro p hp
    have h2 : rsOf u * 1.01 ≤ length3 p := not_lt.1 hp
    have h3 : (0 : ℝ) < rsOf u * 1.01 := by
      unfold rsOf
      nlinarith
    exact ne_of_gt (lt_of_lt_of_le h3 h2)
  · intro d
    unfold asinArg clamp
    constructor
    · exact le_min (le_max_right _ _) (by norm_num)
    · exact min_le_right _ _

/-- Witness for C2 amended at the repository default parameters. -/
theorem singularity_guards_witness : singularityGuards sampleUniforms :=
  singularity_guards_amended sampleUniforms
    (by norm_num [sampleUniforms]) (by norm_num [sampleUniforms])

/-- The cubic Hermite polynomial `t * t * (3 - 2 * t)` is monotone on
[0, 1]. -/
theorem hermite_mono {a b : ℝ} (ha : 0 ≤ a) (hb : b ≤ 1) (hab : a ≤ b) :
    a * a * (3 - 2 * a) ≤ b * b * (3 - 2 * b) := by
  nlinarith [mul_nonneg ha (sub_nonneg.2 hab), mul_nonneg (sub_nonneg.2 hab) (sub_nonneg.2 hb),
    mul_nonneg (mul_nonneg ha ha) (sub_nonneg.2 hab), sq_nonneg (a - b), sq_nonneg (a + b)]

/-- The clamp to [0, 1] is monotone. -/
theorem clamp01_mono {a b : ℝ} (hab : a ≤ b) : clamp a 0 1 ≤ clamp b 0 1 :=
  min_le_min (max_le_max hab le_rfl) le_rfl

/-- The clamp to [0, 1] lands in [0, 1]. -/
theorem clamp01_mem (a : ℝ) : 0 ≤ clamp a 0 1 ∧ clamp a 0 1 ≤ 1 :=
  ⟨le_min (le_max_right _ _) (by norm_num), min_le_right _ _⟩

/-- C5 counterexample: with mass such that the Schwarzschild radius is 1,
the horizon-proximity factor at five Schwarzschild radii is 0.9168, not the
claimed 1.0. -/
theorem adaptive_step_cex : horizonFactor 1 5 ≠ 1 := by
  unfold horizonFactor smoothstep
  dsimp only
  have hc : clamp ((5 - 1 - 0) / (1 * 5 - 0)) 0 1 = 4 / 5 := by
    unfold clamp
    rw [show ((5 : ℝ) - 1 - 0) / (1 * 5 - 0) = 4 / 5 by norm_num,
      max_eq_left (by norm_num : (0 : ℝ) ≤ 4 / 5),
      min_eq_left (by norm_num : (4 : ℝ) / 5 ≤ 1)]
  rw [hc]
  norm_num

/-- C5 amended: in the adaptive-step shader variant the horizon-proximity
factor equals 0.2 at the event horizon, is monotone nondecreasing in the
radial distance, and equals 1.0 for all radii at or beyond 6 times the
Schwarzschild radius (not 5 times); each marching iteration of that variant
advances the position by the adaptive step — the base step size times this
factor — along the freshly bent direction, and the bending magnitude uses
the same adaptive step. -/
theorem adaptive_step_amended (u : Uniforms) :
    horizonFactor (rsOf u) (rsOf u) = 0.2 ∧
    (∀ r : ℝ, 0 < u.blackHoleMass → 6 * rsOf u ≤ r →
      horizonFactor (rsOf u) r = 1) ∧
    (∀ r₁ r₂ : ℝ, 0 < u.blackHoleMass → r₁ ≤ r₂ →
      horizonFactor (rsOf u) r₁ ≤ horizonFactor (rsOf u) r₂) ∧
    (∀ s : MarchState, ¬ breakCond s →
      ¬ length3 s.rayPos < rsOf u * 1.01 → ¬ length3 s.rayPos > 100 →
      (loopBody3 u s).rayPos = add3 s.rayPos
        (smul3 (u.stepSize * horizonFactor (rsOf u) (length3 s.rayPos))
          ((loopBody3 u s).rayDir)) ∧
      (loopBody3 u s).rayDir = normalize3 (add3 s.rayDir
        (smul3 (rsOf u / (length3 s.rayPos * length3 s.rayPos) *
            (u.stepSize * horizonFactor (rsOf u) (length3 s.rayPos)) *
            u.gravitationalLensing)
          (divS3 (neg3 s.rayPos) (length3 s.rayPos))))) := by
  have hrs : ∀ h : 0 < u.blackHoleMass, (0 : ℝ) < rsOf u := by
    intro h
    unfold rsOf
    linarith
  refine ⟨?_, ?_, ?_, ?_⟩
  · unfold horizonFactor smoothstep
    dsimp only
    rw [show rsOf u - rsOf u - 0 = (0 : ℝ) by ring, zero_div]
    unfold clamp
    rw [max_self, min_eq_left (by norm_num : (0 : ℝ) ≤ 1)]
    norm_num
  · intro r hm hr
    have h5 : (0 : ℝ) < rsOf u * 5 := by nlinarith [hrs hm]
    have hge : 1 ≤ (r - rsOf u - 0) / (rsOf u * 5 - 0) := by
      rw [sub_zero, sub_zero, le_div_iff₀ h5]
      nlinarith [hrs hm]
    unfold horizonFactor smoothstep
    dsimp only
    unfold clamp
    rw [max_eq_left (le_trans (by norm_num) hge),
      min_eq_right hge]
    norm_num
  · intro r₁ r₂ hm h12
    have h5 : (0 : ℝ) < rsOf u * 5 - 0 := by
      rw [sub_zero]
      nlinarith [hrs hm]
    have hdiv : (r₁ - rsOf u - 0) / (rsOf u * 5 - 0) ≤
        (r₂ - rsOf u - 0) / (rsOf u * 5 - 0) :=
      (div_le_div_iff_of_pos_right h5).mpr (by linarith)
    have ht1 := clamp01_mem ((r₁ - rsOf u - 0) / (rsOf u * 5 - 0))
    have ht2 := clamp01_mem ((r₂ - rsOf u - 0) / (rsOf u * 5 - 0))
    have hcl := clamp01_mono hdiv
    unfold horizonFactor smoothstep
    dsimp only
    have hh := hermite_mono ht1.1 ht2.2 hcl
    linarith
  · intro s hb hcap hesc
    unfold loopBody3
    rw [if_neg hb, if_neg hcap, if_neg hesc]
    dsimp only
    split_ifs <;> exact ⟨rfl, rfl⟩

/-- C8: cyclic continuity of the turbulence crossfade.  For any fixed hit
radius, hit angle and natural k, the blended turbulence at elapsed time
k * cycleTime equals the single sample at time basis cycleTime; and the
crossfade evaluated at the end of a cycle (cyclic time = cycleTime, the
one-sided limit value of the expiring cycle as the boundary is approached
from below) equals that same boundary value — the two one-sided limits of
the blend agree at every cycle boundary. -/
theorem cyclic_turbulence_seam (u : Uniforms) (hitR hitAngle : ℝ) (k : ℕ)
    (hT : u.turbulenceCycleTime ≠ 0) :
    blendedTurbulence u hitR hitAngle ((k : ℝ) * u.turbulenceCycleTime) =
      turbAt u hitR hitAngle u.turbulenceCycleTime ∧
    blendedCyc u hitR hitAngle u.turbulenceCycleTime =
      blendedTurbulence u hitR hitAngle ((k : ℝ) * u.turbulenceCycleTime) := by
  have hmod : tslMod ((k : ℝ) * u.turbulenceCycleTime) (blendDenom u) = 0 := by
    unfold tslMod blendDenom
    rw [mul_div_cancel_right₀ _ hT, Int.floor_natCast]
    push_cast
    ring
  have h0 : blendedCyc u hitR hitAngle 0 = turbAt u hitR hitAngle u.turbulenceCycleTime := by
    unfold blendedCyc blendDenom mix
    rw [zero_div, zero_add]
    ring
  have hT1 : blendedCyc u hitR hitAngle u.turbulenceCycleTime =
      turbAt u hitR hitAngle u.turbulenceCycleTime := by
    unfold blendedCyc blendDenom mix
    rw [div_self hT]
    ring
  have hfirst : blendedTurbulence u hitR hitAngle ((k : ℝ) * u.turbulenceCycleTime) =
      turbAt u hitR hitAngle u.turbulenceCycleTime := by
    unfold blendedTurbulence
    rw [show tslMod ((k : ℝ) * u.turbulenceCycleTime) (blendDenom u) = 0 from hmod]
    exact h0
  exact ⟨hfirst, by rw [hT1, hfirst]⟩

/-- Witness for C8 at the default cycle time 10, k = 2. -/
theorem cyclic_turbulence_seam_witness :
    blendedTurbulence sampleUniforms 4 0 (((2 : ℕ) : ℝ) * sampleUniforms.turbulenceCycleTime) =
      turbAt sampleUniforms 4 0 sampleUniforms.turbulenceCycleTime :=
  (cyclic_turbulence_seam sampleUniforms 4 0 2 (by norm_num [sampleUniforms])).1

/-- C9 counterexample: with a 1000K peak temperature (diskTemperature 1,
below the fixed 1500K outer temperature) and falloff exponent 1, the disk
temperature strictly increases from hit radius 3 (the inner edge) to hit
radius 6 — `tempK` is not non-increasing for these disk parameters even
though the falloff exponent is positive. -/
theorem temperature_monotonicity_cex :
    tempK coolDiskUniforms 3 < tempK coolDiskUniforms 6 ∧
    0 < coolDiskUniforms.temperatureFalloff ∧
    coolDiskUniforms.diskInnerRadius ≤ 3 ∧ (3 : ℝ) ≤ 6 ∧
    (6 : ℝ) ≤ coolDiskUniforms.diskOuterRadius := by
  refine ⟨?_, by norm_num [coolDiskUniforms, sampleUniforms],
    by norm_num [coolDiskUniforms, sampleUniforms], by norm_num,
    by norm_num [coolDiskUniforms, sampleUniforms]⟩
  have h3 : tempK coolDiskUniforms 3 = 1000 := by
    unfold tempK tslPow mix
    norm_num [coolDiskUniforms, sampleUniforms]
  have h6 : tempK coolDiskUniforms 6 = 1250 := by
    unfold tempK tslPow mix
    norm_num [coolDiskUniforms, sampleUniforms, Real.rpow_one]
  rw [h3, h6]
  norm_num

/-- C9 amended: the disk temperature `tempK` is non-increasing on
[innerRadius, outerRadius] for every positive falloff exponent provided the
peak temperature is at least the fixed 1500K outer temperature, that is,
diskTemperature at least 1.5 (in thousands of Kelvin), with a positive
inner radius. -/
theorem temperature_monotonicity_amended (u : Uniforms) (r₁ r₂ : ℝ)
    (he : 0 < u.temperatureFalloff) (hpk : 1.5 ≤ u.diskTemperature)
    (hi : 0 < u.diskInnerRadius) (h1 : u.diskInnerRadius ≤ r₁)
    (h12 : r₁ ≤ r₂) (h2 : r₂ ≤ u.diskOuterRadius) :
    tempK u r₂ ≤ tempK u r₁ := by
  have hr1 : (0 : ℝ) < r₁ := lt_of_lt_of_le hi h1
  have hr2 : (0 : ℝ) < r₂ := lt_of_lt_of_le hr1 h12
  have hbase : u.diskInnerRadius / r₂ ≤ u.diskInnerRadius / r₁ :=
    div_le_div_of_nonneg_left (le_of_lt hi) hr1 h12
  have hpow : tslPow (u.diskInnerRadius / r₂) u.temperatureFalloff ≤
      tslPow (u.diskInnerRadius / r₁) u.temperatureFalloff := by
    unfold tslPow
    exact Real.rpow_le_rpow (by positivity) hbase (le_of_lt he)
  have hcoeff : (0 : ℝ) ≤ u.diskTemperature * 1000 - 1500 := by linarith
  unfold tempK mix
  nlinarith [mul_le_mul_of_nonneg_left hpow hcoeff]

/-- Witness for C9 amended at the default disk parameters. -/
theorem temperature_monotonicity_witness :
    tempK sampleUniforms 4 ≤ tempK sampleUniforms 3 :=
  temperature_monotonicity_amended sampleUniforms 3 4
    (by norm_num [sampleUniforms]) (by norm_num [sampleUniforms])
    (by norm_num [sampleUniforms]) (by norm_num [sampleUniforms])
    (by norm_num) (by norm_num [sampleUniforms])

/-- C7: the Doppler boost the shader computes equals the claimed formula
`(1 / (1 - beta * cosTheta)) ^ (3 * dopplerStrength)` with
`beta = 0.3 * (1 / sqrt (hitR / innerR))` and `cosTheta` the dot product of
the oriented tangential velocity direction with the ray direction, and the
rgb part of the disk shading is the blackbody color multiplied by this
boost clamped to [0.1, 5.0] (and by the disk brightness). -/
theorem doppler_beaming_formula (u : Uniforms) (hitR hitAngle time : ℝ)
    (rayDir : Vec3) :
    dopplerBoost u hitR hitAngle rayDir = dopplerBoostSpec u hitR hitAngle rayDir ∧
    (accretionDiskColor u hitR hitAngle time rayDir).xyz =
      smul3 u.diskBrightness
        (smul3 (clamp (dopplerBoostSpec u hitR hitAngle rayDir) 0.1 5)
          (blackbodyColor (tempK u hitR))) := by
  have hb : dopplerBoost u hitR hitAngle rayDir =
      dopplerBoostSpec u hitR hitAngle rayDir := by
    unfold dopplerBoost dopplerBoostSpec
    dsimp only
    congr 1
    ring
  refine ⟨hb, ?_⟩
  unfold accretionDiskColor Vec4.xyz
  dsimp only
  rw [hb]

end BlackHole
